import Mathlib

/-!
Shallow embedding of the iron-condor trading engine (coinmaker repository).

All monetary and price quantities are modelled as rationals (`ℚ`); the
exchange gateway is modelled by explicit oracles (`Option`-valued functions
standing for the client's possibly-failing responses, which the Python
client returns as `None` on any transport error).  Each definition mirrors
one Python function of the repository, keeping its name where Lean allows.
-/

/-- One entry of an options-chain snapshot, as consumed by
`IronCondorBuilder` (a dict in the source: `option_type`, `strike`,
`greeks.delta` — possibly absent —, `mark_price`, `mark_iv`). -/
structure ChainOption where
  instrument_name : String
  strike : ℚ
  option_type : String
  delta : Option ℚ
  mark_price : ℚ
  mark_iv : ℚ
deriving DecidableEq

/-- `OptionLeg` dataclass of `src/strategies/iron_condor.py`. -/
structure OptionLeg where
  instrument_name : String
  strike : ℚ
  option_type : String
  direction : String
  delta : ℚ
  mark_price : ℚ
  mark_iv : ℚ
deriving DecidableEq

/-- `IronCondor` dataclass of `src/strategies/iron_condor.py`.  The two
timestamps are abstracted as a rational clock value. -/
structure IronCondor where
  id : String
  currency : String
  expiration_date : String
  spot_price : ℚ
  entry_time : ℚ
  long_put : OptionLeg
  short_put : OptionLeg
  short_call : OptionLeg
  long_call : OptionLeg
  credit_received : ℚ
  max_loss : ℚ
  max_profit : ℚ
  size : ℚ
  take_profit_target : ℚ
  stop_loss_target : ℚ
  status : String
  close_time : Option ℚ
  close_reason : Option String
  realized_pnl : Option ℚ
deriving DecidableEq

/-- The candidate record built inside `find_strike_by_delta`: the loop keeps,
for each quote of the requested kind whose delta is present and within
`tolerance` of the absolute target, the pair of the quote and its
`delta_diff`. -/
def strikeCandidate (option_type : String) (targetAbs tolerance : ℚ)
    (opt : ChainOption) : Option (ChainOption × ℚ) :=
  if opt.option_type = option_type then
    match opt.delta with
    | none => none
    | some d => if |(|d| - targetAbs)| ≤ tolerance then some (opt, |(|d| - targetAbs)|) else none
  else none

/-- `candidates.sort(key=delta_diff); candidates[0]` for a non-empty
candidate list: Python's sort is stable, so the result is the first element
attaining the minimal key.  Modelled as a left fold that replaces the best
element only on a strict improvement. -/
def pickFirstMin {α : Type} (f : α → ℚ) (c : α) (cs : List α) : α :=
  cs.foldl (fun best x => if f x < f best then x else best) c

/-- `IronCondorBuilder.find_strike_by_delta`. -/
def find_strike_by_delta (options : List ChainOption) (target_delta : ℚ)
    (option_type : String) (tolerance : ℚ) : Option ChainOption :=
  match options.filterMap (strikeCandidate option_type |target_delta| tolerance) with
  | [] => none
  | c :: cs => some (pickFirstMin Prod.snd c cs).1

/-- The candidate filter of `IronCondorBuilder.find_protective_strike`:
puts must lie strictly below the short strike and at or below the target
strike; calls strictly above the short strike and at or above the target. -/
def protectiveCandidates (options : List ChainOption) (short_strike : ℚ)
    (option_type : String) (target_strike : ℚ) : List ChainOption :=
  if option_type = "put" then
    options.filter (fun opt =>
      decide (opt.option_type = "put") && decide (opt.strike < short_strike)
        && decide (opt.strike ≤ target_strike))
  else
    options.filter (fun opt =>
      decide (opt.option_type = "call") && decide (opt.strike > short_strike)
        && decide (opt.strike ≥ target_strike))

/-- `IronCondorBuilder.find_protective_strike` (the builder attribute
`wing_width_percent` is passed explicitly). -/
def find_protective_strike (options : List ChainOption) (short_strike : ℚ)
    (option_type : String) (spot_price : ℚ) (wing_width_percent : ℚ) :
    Option ChainOption :=
  let wing_distance := spot_price * wing_width_percent
  let target_strike :=
    if option_type = "put" then short_strike - wing_distance
    else short_strike + wing_distance
  match protectiveCandidates options short_strike option_type target_strike with
  | [] => none
  | c :: cs => some (pickFirstMin (fun o => |o.strike - target_strike|) c cs)

/-- `IronCondorBuilder.build_condor`.  The builder attributes
(`short_delta_target`, `wing_width_percent`) and the two timestamp reads
(`datetime.now()`, used for the id suffix and `entry_time`) are passed as
arguments.  A protective quote with no `greeks.delta` entry raises a
`KeyError` in the source, caught by the surrounding handler, hence the
`Option.bind` on each delta. -/
def build_condor (short_delta_target wing_width_percent : ℚ) (currency : String)
    (options_chain : List ChainOption) (spot_price : ℚ) (expiration_date : String)
    (risk_per_condor : ℚ) (tp_frac sl_mult : ℚ) (now : ℚ) (nowTag : String) :
    Option IronCondor :=
  (find_strike_by_delta options_chain (-short_delta_target) "put" (5/100)).bind fun short_put_opt =>
  (find_strike_by_delta options_chain short_delta_target "call" (5/100)).bind fun short_call_opt =>
  (find_protective_strike options_chain short_put_opt.strike "put" spot_price wing_width_percent).bind fun long_put_opt =>
  (find_protective_strike options_chain short_call_opt.strike "call" spot_price wing_width_percent).bind fun long_call_opt =>
  short_put_opt.delta.bind fun spd =>
  long_put_opt.delta.bind fun lpd =>
  short_call_opt.delta.bind fun scd =>
  long_call_opt.delta.bind fun lcd =>
  let short_put : OptionLeg :=
    ⟨short_put_opt.instrument_name, short_put_opt.strike, "put", "sell", spd,
      short_put_opt.mark_price, short_put_opt.mark_iv⟩
  let long_put : OptionLeg :=
    ⟨long_put_opt.instrument_name, long_put_opt.strike, "put", "buy", lpd,
      long_put_opt.mark_price, long_put_opt.mark_iv⟩
  let short_call : OptionLeg :=
    ⟨short_call_opt.instrument_name, short_call_opt.strike, "call", "sell", scd,
      short_call_opt.mark_price, short_call_opt.mark_iv⟩
  let long_call : OptionLeg :=
    ⟨long_call_opt.instrument_name, long_call_opt.strike, "call", "buy", lcd,
      long_call_opt.mark_price, long_call_opt.mark_iv⟩
  let credit_per_unit :=
    (short_put.mark_price + short_call.mark_price
      - long_put.mark_price - long_call.mark_price) * spot_price
  if credit_per_unit ≤ 0 then none
  else
    let put_spread_width := short_put.strike - long_put.strike
    let call_spread_width := long_call.strike - short_call.strike
    let max_loss_per_unit := max put_spread_width call_spread_width - credit_per_unit
    if max_loss_per_unit ≤ 0 then none
    else
      let size := max (1/100) (min (risk_per_condor / max_loss_per_unit) 10)
      some
        { id := currency ++ "_" ++ expiration_date ++ "_" ++ nowTag
          currency := currency
          expiration_date := expiration_date
          spot_price := spot_price
          entry_time := now
          long_put := long_put
          short_put := short_put
          short_call := short_call
          long_call := long_call
          credit_received := credit_per_unit * size
          max_loss := max_loss_per_unit * size
          max_profit := credit_per_unit * size
          size := size
          take_profit_target := credit_per_unit * size * tp_frac
          stop_loss_target := -(credit_per_unit * size * sl_mult)
          status := "open"
          close_time := none
          close_reason := none
          realized_pnl := none }

/-- The four legs and sides opened by `OrderManager.open_iron_condor`, in
its fixed placement order. -/
def condorOpenLegs (c : IronCondor) : List (OptionLeg × String) :=
  [(c.long_put, "buy"), (c.short_put, "sell"), (c.short_call, "sell"), (c.long_call, "buy")]

/-- The four legs and closing sides of `OrderManager.close_iron_condor`
(close a long by selling, buy back a short). -/
def condorCloseLegs (c : IronCondor) : List (OptionLeg × String) :=
  [(c.long_put, "sell"), (c.short_put, "buy"), (c.short_call, "buy"), (c.long_call, "sell")]

/-- An order-manager action visible to the exchange: an attempted leg
placement (`_execute_leg`) or an attempted leg close (`_close_leg`). -/
inductive OrderAction where
  | openLeg (leg : OptionLeg) (side : String)
  | closeLeg (leg : OptionLeg) (side : String)
deriving DecidableEq

/-- Side reversal used by `OrderManager._rollback_orders`. -/
def reverse_side (s : String) : String := if s = "buy" then "sell" else "buy"

/-- `OrderManager._rollback_orders`: issue one close (with reversed side)
per already-opened leg, in the order they were opened. -/
def rollback_orders (opened : List (OptionLeg × String)) : List OrderAction :=
  opened.map (fun p => OrderAction.closeLeg p.1 (reverse_side p.2))

/-- The leg loop of `OrderManager.open_iron_condor`.  `fills i` is the
exchange oracle: whether the `i`-th executed leg ends up filled after
`_execute_leg`'s bounded retries.  The returned trace records every
attempted placement and every rollback close. -/
def open_legs_loop (fills : ℕ → Bool) :
    ℕ → List (OptionLeg × String) → List (OptionLeg × String) → Bool × List OrderAction
  | _, [], _ => (true, [])
  | i, (leg, side) :: rest, opened =>
    if fills i then
      let r := open_legs_loop fills (i + 1) rest (opened ++ [(leg, side)])
      (r.1, OrderAction.openLeg leg side :: r.2)
    else
      (false, OrderAction.openLeg leg side :: rollback_orders opened)

/-- `OrderManager.open_iron_condor`: returns overall success and the trace
of exchange actions. -/
def open_iron_condor (c : IronCondor) (fills : ℕ → Bool) : Bool × List OrderAction :=
  open_legs_loop fills 0 (condorOpenLegs c) []

/-- The leg loop of `OrderManager.close_iron_condor`: every leg is
attempted, `all_closed` drops to `False` on any failed `_close_leg`
(oracle `closeOk i` for the `i`-th leg). -/
def close_legs_loop (closeOk : ℕ → Bool) :
    ℕ → List (OptionLeg × String) → Bool → Bool
  | _, [], all_closed => all_closed
  | i, _ :: rest, all_closed => close_legs_loop closeOk (i + 1) rest (all_closed && closeOk i)

/-- `OrderManager.close_iron_condor`: `True` only when every leg closed. -/
def close_iron_condor (c : IronCondor) (closeOk : ℕ → Bool) : Bool :=
  close_legs_loop closeOk 0 (condorCloseLegs c) true

/-- Round-half-to-even on a rational, the documented semantics of Python's
built-in `round`. -/
def roundHalfEven (q : ℚ) : ℤ :=
  let f := ⌊q⌋
  if q - f < 1/2 then f
  else if 1/2 < q - f then f + 1
  else if Even f then f else f + 1

/-- `round(x, 2)` as used at the end of `get_condor_pnl`. -/
def round2 (q : ℚ) : ℚ := (roundHalfEven (q * 100) : ℚ) / 100

/-- The order book entry `get_condor_pnl` reads: the `mark_price` key may
be absent from the returned dict. -/
structure OrderBook where
  mark_price : Option ℚ
deriving DecidableEq

/-- The per-leg contribution inside `PositionMonitor.get_condor_pnl`'s
loop: a leg whose order book cannot be fetched is skipped (`continue`,
contributing nothing); a fetched book without a `mark_price` key falls
back to the leg's stored entry mark price. -/
def legCurrentValue (bookOf : String → Option OrderBook) (size spot : ℚ)
    (leg : OptionLeg) (direction : String) : ℚ :=
  match bookOf leg.instrument_name with
  | none => 0
  | some book =>
    let current_mark := book.mark_price.getD leg.mark_price
    if direction = "buy" then current_mark * size * spot
    else -(current_mark * size * spot)

/-- `PositionMonitor.get_condor_pnl`.  `bookOf` is the
`client.get_order_book` oracle and `indexPrice` the `client.get_index_price`
response for the condor's currency (`None` on failure; a `0.0` price is
falsy in `if not spot_price` and is likewise treated as missing). -/
def get_condor_pnl (bookOf : String → Option OrderBook) (indexPrice : Option ℚ)
    (c : IronCondor) : Option ℚ :=
  match indexPrice with
  | none => none
  | some spot =>
    if spot = 0 then none
    else
      let legs := [(c.long_put, "buy"), (c.short_put, "sell"),
                   (c.short_call, "sell"), (c.long_call, "buy")]
      let total := legs.foldl
        (fun acc p => acc + legCurrentValue bookOf c.size spot p.1 p.2) 0
      some (round2 (c.credit_received + total))

/-- The P&L branch of `PositionMonitor.check_exit_conditions`: no exit when
the P&L is unavailable; take-profit is checked before stop-loss.  The
source appends the formatted P&L to the reason string; the model keeps the
bare tag, which is exactly the substring the monitor later matches on. -/
def check_pnl_exit (pnl : Option ℚ) (tp sl : ℚ) : Bool × String :=
  match pnl with
  | none => (false, "")
  | some p =>
    if p ≥ tp then (true, "take_profit")
    else if p ≤ sl then (true, "stop_loss")
    else (false, "")

/-- `PositionMonitor.check_exit_conditions`.  `tteOf c` is the time to
expiry in seconds obtained from parsing `c.expiration_date` (`none` when
parsing raises, in which case the source logs and falls through to the
P&L checks); `pnlOf c` is the `get_condor_pnl` result. -/
def check_exit_conditions (tteOf pnlOf : IronCondor → Option ℚ)
    (c : IronCondor) (hours_before_expiry : ℚ) : Bool × String :=
  match tteOf c with
  | some t =>
    if t < hours_before_expiry * 3600 then (true, "expiry")
    else check_pnl_exit (pnlOf c) c.take_profit_target c.stop_loss_target
  | none => check_pnl_exit (pnlOf c) c.take_profit_target c.stop_loss_target

/-- Aggregate statistics returned by `PositionMonitor.monitor_positions`. -/
structure MonitorStats where
  total_monitored : ℕ
  closed_tp : ℕ
  closed_sl : ℕ
  closed_expiry : ℕ
  total_pnl : ℚ
  errors : ℕ
deriving DecidableEq

/-- The first phase of `monitor_positions`: collect the condors whose exit
condition fired.  A flagged condor whose P&L is unavailable makes the
logging f-string (`f"... P&L: ${pnl:.2f}"`) raise a `TypeError`, caught by
the per-condor handler: the error counter increments and the condor is not
queued for closing. -/
def flag_condors (tteOf pnlOf : IronCondor → Option ℚ) (hours : ℚ) :
    List IronCondor → List (IronCondor × String) × ℕ
  | [] => ([], 0)
  | c :: rest =>
    let r := check_exit_conditions tteOf pnlOf c hours
    let tail := flag_condors tteOf pnlOf hours rest
    if r.1 then
      match pnlOf c with
      | none => (tail.1, tail.2 + 1)
      | some _ => ((c, r.2) :: tail.1, tail.2)
    else tail

/-- The effect of handling one queued condor in the closing phase of
`monitor_positions`: whether it was removed from the tracked set, its
(possibly mutated) state, and the deltas to the statistics. -/
structure CloseOutcome where
  removed : Bool
  condor : IronCondor
  d_tp : ℕ
  d_sl : ℕ
  d_expiry : ℕ
  d_pnl : ℚ
  d_errors : ℕ
deriving DecidableEq

/-- The closing phase of `monitor_positions` for one queued condor.  On a
successful `close_iron_condor` the condor's close fields and status are
set, the per-reason counter and total P&L are updated, and it is removed;
an unavailable P&L at that point makes the final logging f-string raise
after the removal, adding one error.  On a failed close the condor is left
untouched and only the error counter increments. -/
def close_condor_step (pnlOf : IronCondor → Option ℚ)
    (closeLegOk : IronCondor → ℕ → Bool) (now : ℚ)
    (c : IronCondor) (reason : String) : CloseOutcome :=
  if close_iron_condor c (closeLegOk c) then
    let pnl := pnlOf c
    { removed := true
      condor := { c with realized_pnl := pnl, close_time := some now,
                         close_reason := some reason, status := "closed" }
      d_tp := if reason = "take_profit" then 1 else 0
      d_sl := if reason = "take_profit" then 0 else if reason = "stop_loss" then 1 else 0
      d_expiry := if reason = "take_profit" then 0 else if reason = "stop_loss" then 0
                  else if reason = "expiry" then 1 else 0
      d_pnl := pnl.getD 0
      d_errors := match pnl with | none => 1 | some _ => 0 }
  else
    { removed := false, condor := c, d_tp := 0, d_sl := 0, d_expiry := 0,
      d_pnl := 0, d_errors := 1 }

/-- `PositionMonitor.monitor_positions`.  The tracked dict (keyed by
condor id) is modelled as a list with distinct ids; the oracles stand for
the client responses, assumed stable within one cycle.  Returns the
statistics dict and the new tracked set. -/
def monitor_positions (tteOf pnlOf : IronCondor → Option ℚ)
    (closeLegOk : IronCondor → ℕ → Bool) (hours now : ℚ)
    (open_condors : List IronCondor) : MonitorStats × List IronCondor :=
  let fl := flag_condors tteOf pnlOf hours open_condors
  let outcomes := fl.1.map (fun p => close_condor_step pnlOf closeLegOk now p.1 p.2)
  let removed_ids := outcomes.filterMap
    (fun o => if o.removed then some o.condor.id else none)
  let stats : MonitorStats :=
    { total_monitored := open_condors.length
      closed_tp := (outcomes.map (·.d_tp)).sum
      closed_sl := (outcomes.map (·.d_sl)).sum
      closed_expiry := (outcomes.map (·.d_expiry)).sum
      total_pnl := (outcomes.map (·.d_pnl)).sum
      errors := fl.2 + (outcomes.map (·.d_errors)).sum }
  (stats, open_condors.filter (fun c => decide (¬ c.id ∈ removed_ids)))

/-- `RiskManager.can_open_new_position`, as a function of the live figures
it derives on each call: `equity` is the `get_total_equity()` result,
`current_risk` the position monitor's total risk exposure.  The source
embeds the dollar figures in the reason strings; the model keeps the bare
message. -/
def can_open_new_position (equity current_risk risk_per_condor max_portfolio_risk : ℚ) :
    Bool × String :=
  let max_risk := equity * max_portfolio_risk
  let new_condor_risk := equity * risk_per_condor
  let total_risk_after := current_risk + new_condor_risk
  if total_risk_after > max_risk then (false, "Would exceed max portfolio risk")
  else (true, "Available risk")

/-- `IronCondorConfig` dataclass of `config.py` (`tp_frac` models the
source's take-profit fraction field). -/
structure IronCondorConfig where
  name : String
  enabled : Bool
  initial_equity : ℚ
  risk_per_condor : ℚ
  max_portfolio_risk : ℚ
  tp_frac : ℚ
  sl_mult : ℚ
  close_before_expiry_hours : ℚ
  min_dte : ℤ
  max_dte : ℤ
  min_iv_percentile : ℚ
  short_delta_target : ℚ
  wing_width_percent : ℚ
  currencies : List String
deriving DecidableEq

/-- `SmartMoneyConfig` dataclass of `config.py`. -/
structure SmartMoneyConfig where
  name : String
  enabled : Bool
  time_window_start : ℤ
  time_window_end : ℤ
  whale_min_value : ℤ
  binance_symbol : String
deriving DecidableEq

/-- A loaded strategy configuration (`Config.STRATEGIES` entry). -/
inductive StrategyConfig where
  | ironCondor (c : IronCondorConfig)
  | smartMoney (c : SmartMoneyConfig)
deriving DecidableEq

/-- The global `Config` state read by `Config.validate`. -/
structure BotConfig where
  deribit_api_key : String
  deribit_api_secret : String
  deribit_env : String
  strategies : List StrategyConfig
deriving DecidableEq

/-- The per-strategy errors collected by `Config.validate`: only a
non-positive initial equity is flagged for an iron-condor strategy, and
nothing at all for a smart-money strategy. -/
def strategyErrors : StrategyConfig → List String
  | .ironCondor c =>
    if c.initial_equity ≤ 0 then ["Iron Condor: INITIAL_EQUITY must be positive"] else []
  | .smartMoney _ => []

/-- The error list built by `Config.validate`. -/
def validateConfigErrors (cfg : BotConfig) : List String :=
  (if cfg.deribit_api_key = "" then ["DERIBIT_API_KEY is required"] else [])
    ++ (if cfg.deribit_api_secret = "" then ["DERIBIT_API_SECRET is required"] else [])
    ++ (if cfg.deribit_env = "test" ∨ cfg.deribit_env = "prod" then []
        else ["DERIBIT_ENV must be test or prod"])
    ++ (if cfg.strategies = [] then ["No strategies enabled"] else [])
    ++ (cfg.strategies.map strategyErrors).flatten

/-- `Config.validate`: `True` exactly when no error was collected. -/
def config_validate (cfg : BotConfig) : Bool :=
  (validateConfigErrors cfg).isEmpty

/-! ### Concrete fixtures and evaluation helpers used by counterexamples
and witnesses -/

/-- String literals of the embedding are distinct: used to let `simp`
evaluate the option-kind dispatch on concrete chains. -/
theorem call_ne_put : ("call" : String) ≠ "put" := by decide

/-- Symmetric form of `call_ne_put`. -/
theorem put_ne_call : ("put" : String) ≠ "call" := by decide

/-- The options chain of the spec's end-to-end scenario: puts at 45000
(delta −0.12) and 42500 (delta −0.05), calls at 55000 (delta 0.12) and
57500 (delta 0.05), with mark prices summing to a 500 USD credit per unit
at spot 50000. -/
def chainEx : List ChainOption :=
  [ ⟨"BTC-27JUN25-45000-P", 45000, "put", some (-(12/100)), 12/1000, 60⟩,
    ⟨"BTC-27JUN25-42500-P", 42500, "put", some (-(5/100)), 7/1000, 65⟩,
    ⟨"BTC-27JUN25-55000-C", 55000, "call", some (12/100), 12/1000, 60⟩,
    ⟨"BTC-27JUN25-57500-C", 57500, "call", some (5/100), 7/1000, 65⟩ ]

/-- A concrete iron condor: the structure the builder produces on
`chainEx` (credit 500 and max loss 2000 per unit, size 0.05). -/
def condorEx : IronCondor :=
  { id := "BTC_27JUN25_t"
    currency := "BTC"
    expiration_date := "27JUN25"
    spot_price := 50000
    entry_time := 0
    long_put := ⟨"BTC-27JUN25-42500-P", 42500, "put", "buy", -(5/100), 7/1000, 65⟩
    short_put := ⟨"BTC-27JUN25-45000-P", 45000, "put", "sell", -(12/100), 12/1000, 60⟩
    short_call := ⟨"BTC-27JUN25-55000-C", 55000, "call", "sell", 12/100, 12/1000, 60⟩
    long_call := ⟨"BTC-27JUN25-57500-C", 57500, "call", "buy", 5/100, 7/1000, 65⟩
    credit_received := 25
    max_loss := 100
    max_profit := 25
    size := 1/20
    take_profit_target := 55/4
    stop_loss_target := -30
    status := "open"
    close_time := none
    close_reason := none
    realized_pnl := none }

/-- An iron-condor strategy configuration whose per-structure risk fraction
(5%) exceeds the portfolio-wide risk fraction (3%). -/
def badCondorCfg : IronCondorConfig :=
  { name := "Iron Condor"
    enabled := true
    initial_equity := 10000
    risk_per_condor := 5/100
    max_portfolio_risk := 3/100
    tp_frac := 55/100
    sl_mult := 6/5
    close_before_expiry_hours := 24
    min_dte := 7
    max_dte := 10
    min_iv_percentile := 30
    short_delta_target := 12/100
    wing_width_percent := 5/100
    currencies := ["BTC", "ETH"] }

/-- A full configuration carrying `badCondorCfg`, with valid credentials
and environment. -/
def badConfig : BotConfig :=
  { deribit_api_key := "key"
    deribit_api_secret := "secret"
    deribit_env := "test"
    strategies := [StrategyConfig.ironCondor badCondorCfg] }

/-! ### C5 — portfolio risk gate -/

/-- C5: `can_open_new_position` denies (returns `false` with a reason)
exactly when `current_exposure + equity * risk_per_condor` exceeds
`equity * max_portfolio_risk`, and allows exactly when that sum is at or
below `equity * max_portfolio_risk`. -/
theorem can_open_new_position_gate (equity current_risk rpc mpr : ℚ) :
    ((can_open_new_position equity current_risk rpc mpr).1 = false
      ↔ equity * mpr < current_risk + equity * rpc)
    ∧ ((can_open_new_position equity current_risk rpc mpr).1 = true
      ↔ current_risk + equity * rpc ≤ equity * mpr) := by
  by_cases h : equity * mpr < current_risk + equity * rpc
  · have hval : can_open_new_position equity current_risk rpc mpr
        = (false, "Would exceed max portfolio risk") := by
      unfold can_open_new_position
      simp [h]
    rw [hval]
    exact ⟨by simp [h], by simp [not_le.mpr h]⟩
  · have hval : can_open_new_position equity current_risk rpc mpr
        = (true, "Available risk") := by
      unfold can_open_new_position
      simp [h]
    rw [hval]
    exact ⟨by simp [h], by simp [not_lt.mp h]⟩

/-! ### C2 — unavailable quotes in `get_condor_pnl` -/

/-- C2 counterexample: with the spot price available but every leg's order
book unavailable, `get_condor_pnl` does not return "unavailable": it skips
all four legs and returns the stored credit, here `some 25`, refuting the
claim that a missing leg quote yields `None`. -/
theorem get_condor_pnl_missing_leg_quote_counterexample :
    get_condor_pnl (fun _ => none) (some 50000) condorEx = some 25
    ∧ (some (25 : ℚ) ≠ (none : Option ℚ)) := by
  constructor
  · norm_num [get_condor_pnl, legCurrentValue, round2, roundHalfEven, condorEx]
  · simp

/-- C2 amended: `get_condor_pnl` is "unavailable" (`none`) exactly when the
underlying spot price cannot be fetched (absent, or `0.0`, which the
source's falsy test treats as absent); a leg whose order book cannot be
fetched is silently skipped (contributes zero) and a fetched book without
a mark price falls back to the leg's stale entry mark price, so leg-quote
failures never make the result unavailable. -/
theorem get_condor_pnl_none_iff (bookOf : String → Option OrderBook)
    (indexPrice : Option ℚ) (c : IronCondor) :
    get_condor_pnl bookOf indexPrice c = none
      ↔ (indexPrice = none ∨ indexPrice = some 0) := by
  cases indexPrice with
  | none => simp [get_condor_pnl]
  | some s =>
    by_cases h : s = 0
    · subst h; simp [get_condor_pnl]
    · simp [get_condor_pnl, h]

/-! ### C3 — startup validation of risk fractions -/

/-- C3 counterexample: a configuration whose per-structure risk fraction
(5%) exceeds the portfolio-wide fraction (3%) passes `Config.validate`,
refuting the claim that such configurations are rejected before trading
begins. -/
theorem config_validate_risk_fraction_counterexample :
    config_validate badConfig = true
    ∧ badCondorCfg.max_portfolio_risk < badCondorCfg.risk_per_condor
    ∧ badConfig.strategies = [StrategyConfig.ironCondor badCondorCfg] := by
  refine ⟨?_, by norm_num [badCondorCfg], rfl⟩
  have h : validateConfigErrors badConfig = [] := by
    norm_num [validateConfigErrors, strategyErrors, badConfig, badCondorCfg,
      show ("key" : String) ≠ "" from by decide,
      show ("secret" : String) ≠ "" from by decide]
  simp [config_validate, h]

/-- C3 amended: `Config.validate` succeeds exactly when the credentials are
non-empty, the environment is `test` or `prod`, at least one strategy is
enabled, and every iron-condor strategy has positive initial equity; it
performs no comparison between `risk_per_condor` and
`max_portfolio_risk`, so configurations violating the spec's risk-fraction
invariant are accepted. -/
theorem config_validate_true_iff (cfg : BotConfig) :
    config_validate cfg = true
      ↔ (cfg.deribit_api_key ≠ "" ∧ cfg.deribit_api_secret ≠ ""
          ∧ (cfg.deribit_env = "test" ∨ cfg.deribit_env = "prod")
          ∧ cfg.strategies ≠ []
          ∧ ∀ ic, StrategyConfig.ironCondor ic ∈ cfg.strategies →
              0 < ic.initial_equity) := by
  have h1 : ((if cfg.deribit_api_key = "" then ["DERIBIT_API_KEY is required"]
      else []) = []) ↔ cfg.deribit_api_key ≠ "" := by
    by_cases h : cfg.deribit_api_key = "" <;> simp [h]
  have h2 : ((if cfg.deribit_api_secret = "" then ["DERIBIT_API_SECRET is required"]
      else []) = []) ↔ cfg.deribit_api_secret ≠ "" := by
    by_cases h : cfg.deribit_api_secret = "" <;> simp [h]
  have h3 : ((if cfg.deribit_env = "test" ∨ cfg.deribit_env = "prod" then []
      else ["DERIBIT_ENV must be test or prod"]) = [])
      ↔ (cfg.deribit_env = "test" ∨ cfg.deribit_env = "prod") := by
    by_cases h : cfg.deribit_env = "test" ∨ cfg.deribit_env = "prod" <;> simp [h]
  have h4 : ((if cfg.strategies = [] then ["No strategies enabled"] else []) = [])
      ↔ cfg.strategies ≠ [] := by
    by_cases h : cfg.strategies = [] <;> simp [h]
  have h5 : ((cfg.strategies.map strategyErrors).flatten = []
      ↔ ∀ ic, StrategyConfig.ironCondor ic ∈ cfg.strategies →
          0 < ic.initial_equity) := by
    rw [List.flatten_eq_nil_iff]
    constructor
    · intro h ic hic
      have hse := h _ (List.mem_map_of_mem strategyErrors hic)
      by_contra hle
      rw [not_lt] at hle
      simp [strategyErrors, hle] at hse
    · intro h xs hxs
      rcases List.mem_map.mp hxs with ⟨s, hs, rfl⟩
      cases s with
      | ironCondor ic => simp [strategyErrors, not_le.mpr (h ic hs)]
      | smartMoney sm => rfl
  rw [config_validate, List.isEmpty_iff, validateConfigErrors,
    List.append_eq_nil, List.append_eq_nil, List.append_eq_nil,
    List.append_eq_nil, h1, h2, h3, h4, h5]
  tauto

/-! ### C4 — the end-to-end build scenario -/

/-- C4 counterexample: on the scenario chain the pre-clamp size 0.05
already lies inside the clamp interval `[0.01, 10]`, so `build_condor`
keeps size 0.05 and returns `credit_received = 25`, refuting the claimed
clamp to 0.01 and `credit_received = 5`. -/
theorem build_condor_scenario_counterexample :
    (build_condor (12/100) (5/100) "BTC" chainEx 50000 "27JUN25" 100 (55/100)
        (6/5) 0 "t").map (fun c => c.credit_received) = some 25
    ∧ some (25 : ℚ) ≠ some (5 : ℚ) := by
  constructor
  · norm_num [build_condor, find_strike_by_delta, find_protective_strike, strikeCandidate,
      protectiveCandidates, chainEx, pickFirstMin, abs_eq_max_neg, max_def, min_def,
      List.filterMap_cons, List.filterMap_nil, List.foldl_cons, List.foldl_nil,
      List.filter_cons, List.filter_nil, call_ne_put, put_ne_call, Option.bind]
  · norm_num

/-- C4 amended: on the scenario chain (spot 50000, shorts selected at
45000/55000, wings at 42500/57500, credit 500 and max loss 2000 per unit,
risk budget 100) `build_condor` computes size 100/2000 = 0.05, which the
clamp `max(0.01, min(size, 10))` leaves unchanged, and returns
`credit_received = 25`, `max_loss = 100`, `take_profit_target = 13.75`
(ratio 0.55) and `stop_loss_target = −30` (multiplier 1.2). -/
theorem build_condor_scenario_amended :
    (build_condor (12/100) (5/100) "BTC" chainEx 50000 "27JUN25" 100 (55/100)
        (6/5) 0 "t").map (fun c => (c.size, c.credit_received, c.max_loss,
      c.take_profit_target, c.stop_loss_target))
    = some (1/20, 25, 100, 55/4, -30) := by
  norm_num [build_condor, find_strike_by_delta, find_protective_strike, strikeCandidate,
    protectiveCandidates, chainEx, pickFirstMin, abs_eq_max_neg, max_def, min_def,
    List.filterMap_cons, List.filterMap_nil, List.foldl_cons, List.foldl_nil,
    List.filter_cons, List.filter_nil, call_ne_put, put_ne_call, Option.bind]

/-! ### C8 — exit-condition priority -/

/-- C8: when the time to expiry is below the threshold,
`check_exit_conditions` reports `expiry` for every value of the P&L oracle
(in particular one already past the take-profit target), without needing
the P&L; when the threshold is not crossed and the P&L is available, it
reports `take_profit` when `pnl ≥ take_profit_target`, `stop_loss` when
`pnl ≤ stop_loss_target`, and no exit otherwise. -/
theorem check_exit_priority (tteOf pnlOf : IronCondor → Option ℚ) (c : IronCondor)
    (hours t : ℚ) (htte : tteOf c = some t)
    (hsl : c.stop_loss_target < c.take_profit_target) :
    (t < hours * 3600 →
      check_exit_conditions tteOf pnlOf c hours = (true, "expiry"))
    ∧ (¬ t < hours * 3600 → ∀ p, pnlOf c = some p →
        ((c.take_profit_target ≤ p →
            check_exit_conditions tteOf pnlOf c hours = (true, "take_profit"))
         ∧ (p ≤ c.stop_loss_target →
            check_exit_conditions tteOf pnlOf c hours = (true, "stop_loss"))
         ∧ (c.stop_loss_target < p → p < c.take_profit_target →
            check_exit_conditions tteOf pnlOf c hours = (false, "")))) := by
  constructor
  · intro hlt
    simp [check_exit_conditions, htte, hlt]
  · intro hge p hp
    have hform : check_exit_conditions tteOf pnlOf c hours
        = check_pnl_exit (some p) c.take_profit_target c.stop_loss_target := by
      simp [check_exit_conditions, htte, hge, hp]
    refine ⟨?_, ?_, ?_⟩
    · intro htp
      rw [hform]
      simp [check_pnl_exit, htp]
    · intro hslp
      have hntp : ¬ c.take_profit_target ≤ p :=
        not_le.mpr (lt_of_le_of_lt hslp hsl)
      rw [hform]
      simp [check_pnl_exit, hntp, hslp]
    · intro hgt hlt
      rw [hform]
      simp [check_pnl_exit, not_le.mpr hlt, not_le.mpr hgt]

/-- C8 witness: a structure 0 seconds from expiry whose P&L (100) is far
past its take-profit target (13.75) still reports `expiry`. -/
theorem check_exit_priority_witness :
    check_exit_conditions (fun _ => some 0) (fun _ => some 100) condorEx 24
      = (true, "expiry") :=
  (check_exit_priority (fun _ => some 0) (fun _ => some 100) condorEx 24 0 rfl
    (by norm_num [condorEx])).1 (by norm_num)

/-! ### C9 — partial close failures are surfaced -/

/-- `close_iron_condor` is the conjunction of the four per-leg close
results (shared helper). -/
theorem close_iron_condor_eq (c : IronCondor) (ok : ℕ → Bool) :
    close_iron_condor c ok = (ok 0 && ok 1 && ok 2 && ok 3) := by
  simp [close_iron_condor, close_legs_loop, condorCloseLegs, Bool.and_assoc]

/-- C9: if any of the four legs fails to close, `close_iron_condor`
reports failure (the structure is logged as partially closed), and the
monitoring cycle's handling of that condor leaves it tracked and
unmodified while recording one error in the returned statistics. -/
theorem close_failure_surfaced (c : IronCondor) (closeOk : ℕ → Bool)
    (h : ∃ i, i < 4 ∧ closeOk i = false) :
    close_iron_condor c closeOk = false
    ∧ ∀ (pnlOf : IronCondor → Option ℚ) (now : ℚ) (reason : String),
        close_condor_step pnlOf (fun _ => closeOk) now c reason
          = { removed := false, condor := c, d_tp := 0, d_sl := 0, d_expiry := 0,
              d_pnl := 0, d_errors := 1 } := by
  have hfail : close_iron_condor c closeOk = false := by
    rcases h with ⟨i, hi, hok⟩
    rw [close_iron_condor_eq]
    interval_cases i <;> simp [hok]
  exact ⟨hfail, fun pnlOf now reason => by simp [close_condor_step, hfail]⟩

/-- C9 witness: with the third and fourth legs failing to close, the close
of the concrete condor reports failure. -/
theorem close_failure_surfaced_witness :
    close_iron_condor condorEx (fun i => decide (i < 2)) = false :=
  (close_failure_surfaced condorEx (fun i => decide (i < 2))
    ⟨2, by norm_num, by decide⟩).1

/-! ### C1 — rollback on a failed leg during open -/

/-- C1: if the first `k` legs fill and leg `k+1` (0-indexed `k`) fails
after its retry budget, `open_iron_condor` returns failure and its action
trace consists of exactly the `k+1` attempted placements followed by
exactly `k` closes — one per already-filled leg, each with the reversed
side — and nothing else: no further leg is placed. -/
theorem open_iron_condor_rollback (c : IronCondor) (fills : ℕ → Bool) (k : Fin 4)
    (h1 : ∀ i, i < k.val → fills i = true) (h2 : fills k.val = false) :
    open_iron_condor c fills
      = (false,
         ((condorOpenLegs c).take (k.val + 1)).map
             (fun p => OrderAction.openLeg p.1 p.2)
           ++ rollback_orders ((condorOpenLegs c).take k.val)) := by
  fin_cases k
  · simp only [Fin.val_mk] at h2 ⊢
    simp [open_iron_condor, open_legs_loop, condorOpenLegs, rollback_orders, h2]
  · have f0 := h1 0 (by norm_num)
    simp [open_iron_condor, open_legs_loop, condorOpenLegs, rollback_orders, f0, h2]
  · have f0 := h1 0 (by norm_num)
    have f1 := h1 1 (by norm_num)
    simp [open_iron_condor, open_legs_loop, condorOpenLegs, rollback_orders, f0, f1, h2]
  · have f0 := h1 0 (by norm_num)
    have f1 := h1 1 (by norm_num)
    have f2 := h1 2 (by norm_num)
    simp [open_iron_condor, open_legs_loop, condorOpenLegs, rollback_orders,
      f0, f1, f2, h2]

/-- C1 witness: legs 1 and 2 fill, leg 3 (the short call) fails: the trace
is the three placements followed by the two rollback closes with reversed
sides, and the open reports failure. -/
theorem open_iron_condor_rollback_witness :
    open_iron_condor condorEx (fun i => decide (i < 2))
      = (false,
         [OrderAction.openLeg condorEx.long_put "buy",
          OrderAction.openLeg condorEx.short_put "sell",
          OrderAction.openLeg condorEx.short_call "sell",
          OrderAction.closeLeg condorEx.long_put "sell",
          OrderAction.closeLeg condorEx.short_put "buy"]) := by
  have h := open_iron_condor_rollback condorEx (fun i => decide (i < 2))
    ⟨2, by norm_num⟩ (fun i hi => by interval_cases i <;> decide) (by decide)
  rw [h]
  simp [condorOpenLegs, rollback_orders, reverse_side]

/-! ### Helper lemmas for the stable-minimum selection -/

/-- `pickFirstMin` returns the first element of `c :: cs` attaining the
minimal key: the list splits around the result, every element before it
has a strictly larger key, and the result's key is minimal overall. -/
theorem pickFirstMin_spec {α : Type} (f : α → ℚ) (c : α) (cs : List α) :
    ∃ l1 l2, c :: cs = l1 ++ pickFirstMin f c cs :: l2
      ∧ (∀ x ∈ l1, f (pickFirstMin f c cs) < f x)
      ∧ (∀ x ∈ c :: cs, f (pickFirstMin f c cs) ≤ f x) := by
  induction cs generalizing c with
  | nil =>
    refine ⟨[], [], rfl, by simp, ?_⟩
    intro x hx
    rcases List.mem_singleton.mp hx with rfl
    exact le_refl _
  | cons x xs ih =>
    have hstep : pickFirstMin f c (x :: xs)
        = pickFirstMin f (if f x < f c then x else c) xs := rfl
    by_cases h : f x < f c
    · rw [hstep, if_pos h]
      obtain ⟨l1, l2, heq, hlt, hle⟩ := ih x
      refine ⟨c :: l1, l2, ?_, ?_, ?_⟩
      · rw [List.cons_append, ← heq]
      · intro y hy
        rcases List.mem_cons.mp hy with rfl | hy'
        · exact lt_of_le_of_lt (hle x (List.mem_cons_self x xs)) h
        · exact hlt y hy'
      · intro y hy
        rcases List.mem_cons.mp hy with rfl | hy'
        · exact le_of_lt (lt_of_le_of_lt (hle x (List.mem_cons_self x xs)) h)
        · exact hle y hy'
    · rw [hstep, if_neg h]
      obtain ⟨l1, l2, heq, hlt, hle⟩ := ih c
      cases l1 with
      | nil =>
        rw [List.nil_append] at heq
        injection heq with hc hxs
        refine ⟨[], x :: xs, ?_, by simp, ?_⟩
        · rw [List.nil_append, ← hc]
        · intro y hy
          rcases List.mem_cons.mp hy with rfl | hy'
          · rw [← hc]
          · rcases List.mem_cons.mp hy' with rfl | hy''
            · rw [← hc]; exact not_lt.mp h
            · exact hle y (List.mem_cons_of_mem c (hxs ▸ hy''))
      | cons a t =>
        rw [List.cons_append] at heq
        injection heq with hac hxs
        have hrc : f (pickFirstMin f c xs) < f c := by
          have := hlt a (List.mem_cons_self a t)
          rwa [← hac] at this
        refine ⟨c :: x :: t, l2, ?_, ?_, ?_⟩
        · rw [List.cons_append, List.cons_append, ← hxs]
        · intro y hy
          rcases List.mem_cons.mp hy with rfl | hy'
          · exact hrc
          · rcases List.mem_cons.mp hy' with rfl | hy''
            · exact lt_of_lt_of_le hrc (not_lt.mp h)
            · exact hlt y (List.mem_cons_of_mem a hy'')
        · intro y hy
          rcases List.mem_cons.mp hy with rfl | hy'
          · exact le_of_lt hrc
          · rcases List.mem_cons.mp hy' with rfl | hy''
            · exact le_of_lt (lt_of_lt_of_le hrc (not_lt.mp h))
            · exact hle y (List.mem_cons_of_mem c hy'')

/-- Splitting a `filterMap` around one output element: the input splits
around a preimage of that element, and the prefix maps onto the output's
prefix. -/
theorem filterMap_split {α β : Type} (f : α → Option β) (L : List α)
    (l1 : List β) (x : β) (l2 : List β) (h : L.filterMap f = l1 ++ x :: l2) :
    ∃ m1 y m2, L = m1 ++ y :: m2 ∧ f y = some x ∧ m1.filterMap f = l1 := by
  induction L generalizing l1 with
  | nil =>
    rw [List.filterMap_nil] at h
    exact absurd h.symm (by simp)
  | cons a L ih =>
    cases hfa : f a with
    | none =>
      rw [List.filterMap_cons_none hfa] at h
      obtain ⟨m1, y, m2, hL, hy, hm⟩ := ih _ h
      exact ⟨a :: m1, y, m2, by rw [List.cons_append, hL], hy,
        by rw [List.filterMap_cons_none hfa, hm]⟩
    | some b =>
      rw [List.filterMap_cons_some hfa] at h
      cases l1 with
      | nil =>
        rw [List.nil_append] at h
        injection h with hb hrest
        exact ⟨[], a, L, rfl, by rw [hfa, hb], rfl⟩
      | cons e t =>
        rw [List.cons_append] at h
        injection h with hb hrest
        obtain ⟨m1, y, m2, hL, hy, hm⟩ := ih _ hrest
        exact ⟨a :: m1, y, m2, by rw [List.cons_append, hL], hy,
          by rw [List.filterMap_cons_some hfa, hm, hb]⟩

/-! ### C6 — strike selection by target sensitivity -/

/-- The claim's candidate notion for `find_strike_by_delta` (statement
vocabulary only): a quote of the requested kind whose delta is present
and whose absolute-delta distance to the absolute target is within
tolerance. -/
def specDeltaCandidate (kind : String) (targetAbs tolerance : ℚ)
    (o : ChainOption) : Prop :=
  o.option_type = kind ∧ ∃ d, o.delta = some d ∧ |(|d| - targetAbs)| ≤ tolerance

/-- The absolute-delta distance of a quote to the absolute target
(statement vocabulary only). -/
def specDeltaDiff (targetAbs : ℚ) (o : ChainOption) : ℚ :=
  |(|o.delta.getD 0| - targetAbs)|

/-- Inversion of the candidate builder (shared helper). -/
theorem strikeCandidate_eq_some {kind : String} {t tol : ℚ} {o : ChainOption}
    {p : ChainOption × ℚ} :
    strikeCandidate kind t tol o = some p ↔
      o.option_type = kind ∧ ∃ d, o.delta = some d ∧ |(|d| - t)| ≤ tol
        ∧ p = (o, |(|d| - t)|) := by
  unfold strikeCandidate
  by_cases h : o.option_type = kind
  · rw [if_pos h]
    cases hd : o.delta with
    | none => simp [h, hd]
    | some d =>
      by_cases htol : |(|d| - t)| ≤ tol
      · simp [h, hd, htol, eq_comm]
      · simp [h, hd, htol]
  · rw [if_neg h]
    simp [h]

/-- A spec candidate is accepted by the candidate builder with its
distance as key (shared helper). -/
theorem strikeCandidate_of_spec {kind : String} {t tol : ℚ} {o : ChainOption}
    (h : specDeltaCandidate kind t tol o) :
    strikeCandidate kind t tol o = some (o, specDeltaDiff t o) := by
  obtain ⟨hk, d, hd, htol⟩ := h
  rw [strikeCandidate_eq_some]
  exact ⟨hk, d, hd, htol, by rw [specDeltaDiff, hd]; rfl⟩

/-- The candidate builder rejects exactly the non-candidates (shared
helper). -/
theorem strikeCandidate_eq_none {kind : String} {t tol : ℚ} {o : ChainOption} :
    strikeCandidate kind t tol o = none ↔ ¬ specDeltaCandidate kind t tol o := by
  constructor
  · intro hn hc
    rw [strikeCandidate_of_spec hc] at hn
    exact Option.some_ne_none _ hn
  · intro hc
    cases hs : strikeCandidate kind t tol o with
    | none => rfl
    | some p =>
      obtain ⟨hk, d, hd, htol, _⟩ := strikeCandidate_eq_some.mp hs
      exact absurd ⟨hk, d, hd, htol⟩ hc

/-- C6: `find_strike_by_delta` returns `none` exactly when no quote of the
requested kind has its absolute delta within tolerance of the absolute
target; otherwise it returns a quote of the requested kind within
tolerance whose distance is minimal over all in-tolerance candidates of
that kind, and which is the first such minimiser in chain order (stable
tie-break). -/
theorem find_strike_by_delta_spec (options : List ChainOption) (target_delta : ℚ)
    (kind : String) (tolerance : ℚ) :
    (find_strike_by_delta options target_delta kind tolerance = none
      ↔ ∀ o ∈ options, ¬ specDeltaCandidate kind |target_delta| tolerance o)
    ∧ (∀ q, find_strike_by_delta options target_delta kind tolerance = some q →
        specDeltaCandidate kind |target_delta| tolerance q
        ∧ (∀ o ∈ options, specDeltaCandidate kind |target_delta| tolerance o →
            specDeltaDiff |target_delta| q ≤ specDeltaDiff |target_delta| o)
        ∧ ∃ l1 l2, options = l1 ++ q :: l2
            ∧ ∀ o ∈ l1, specDeltaCandidate kind |target_delta| tolerance o →
                specDeltaDiff |target_delta| q < specDeltaDiff |target_delta| o) := by
  unfold find_strike_by_delta
  cases hc : options.filterMap (strikeCandidate kind |target_delta| tolerance) with
  | nil =>
    constructor
    · constructor
      · intro _ o ho hcand
        have hnone := List.filterMap_eq_nil_iff.mp hc o ho
        exact (strikeCandidate_eq_none.mp hnone) hcand
      · intro _; rfl
    · intro q hq
      exact absurd hq (by simp)
  | cons c cs =>
    have hmem : ∀ p ∈ c :: cs, p.1 ∈ options
        ∧ strikeCandidate kind |target_delta| tolerance p.1 = some p
        ∧ specDeltaCandidate kind |target_delta| tolerance p.1
        ∧ p.2 = specDeltaDiff |target_delta| p.1 := by
      intro p hp
      rw [← hc] at hp
      obtain ⟨a, ha, hfa⟩ := List.mem_filterMap.mp hp
      obtain ⟨hk, d, hd, htol, hpe⟩ := strikeCandidate_eq_some.mp hfa
      subst hpe
      exact ⟨ha, hfa, ⟨hk, d, hd, htol⟩, by simp [specDeltaDiff, hd]⟩
    obtain ⟨l1, l2, hsplit, hbefore, hmin⟩ := pickFirstMin_spec Prod.snd c cs
    have hrmem : pickFirstMin Prod.snd c cs ∈ c :: cs := by
      rw [hsplit]
      exact List.mem_append_right l1 (List.mem_cons_self _ l2)
    obtain ⟨hrin, hrsc, hrcand, hrdiff⟩ := hmem _ hrmem
    constructor
    · constructor
      · intro habs
        exact absurd habs (by simp)
      · intro hall
        exact absurd hrcand (hall _ hrin)
    · intro q hq
      have hqr : (pickFirstMin Prod.snd c cs).1 = q := by
        injection hq
      subst hqr
      refine ⟨hrcand, ?_, ?_⟩
      · intro o ho hocand
        have hpair : (o, specDeltaDiff |target_delta| o) ∈ c :: cs := by
          rw [← hc]
          exact List.mem_filterMap.mpr ⟨o, ho, strikeCandidate_of_spec hocand⟩
        have hle := hmin _ hpair
        simpa [hrdiff] using hle
      · have hsplit' : options.filterMap (strikeCandidate kind |target_delta| tolerance)
            = l1 ++ pickFirstMin Prod.snd c cs :: l2 := by
          rw [hc]; exact hsplit
        obtain ⟨m1, y, m2, hopt, hysome, hm1⟩ := filterMap_split _ _ _ _ _ hsplit'
        obtain ⟨hk, d, hd, htol, hre⟩ := strikeCandidate_eq_some.mp hysome
        have hy1 : (pickFirstMin Prod.snd c cs).1 = y := by rw [hre]
        refine ⟨m1, m2, ?_, ?_⟩
        · rw [hopt, hy1]
        · intro o ho hocand
          have hpair : (o, specDeltaDiff |target_delta| o) ∈ l1 := by
            rw [← hm1]
            exact List.mem_filterMap.mpr ⟨o, ho, strikeCandidate_of_spec hocand⟩
          have hlt := hbefore _ hpair
          simpa [hrdiff] using hlt

/-- C6 witness: on the scenario chain the selected short put (strike
45000, delta −0.12) is a valid in-tolerance candidate of kind put. -/
theorem find_strike_by_delta_spec_witness :
    specDeltaCandidate "put" |(-(12/100) : ℚ)| (5/100)
      ⟨"BTC-27JUN25-45000-P", 45000, "put", some (-(12/100)), 12/1000, 60⟩ :=
  ((find_strike_by_delta_spec chainEx (-(12/100)) "put" (5/100)).2
    ⟨"BTC-27JUN25-45000-P", 45000, "put", some (-(12/100)), 12/1000, 60⟩
    (by norm_num [find_strike_by_delta, strikeCandidate, chainEx, pickFirstMin,
      abs_eq_max_neg, max_def, min_def, List.filterMap_cons, List.filterMap_nil,
      List.foldl_cons, List.foldl_nil, call_ne_put, put_ne_call])).1

/-! ### C7 — protective strike selection -/

/-- The candidate notion amended from the code for
`find_protective_strike` (statement vocabulary only): strictly beyond the
anchor in the protective direction and at or beyond the target strike. -/
def specProtectiveCandidate (kind : String) (anchor target : ℚ)
    (o : ChainOption) : Prop :=
  if kind = "put" then
    o.option_type = "put" ∧ o.strike < anchor ∧ o.strike ≤ target
  else
    o.option_type = "call" ∧ anchor < o.strike ∧ target ≤ o.strike

/-- Membership in the protective candidate filter (shared helper). -/
theorem protectiveCandidates_mem (options : List ChainOption) (anchor : ℚ)
    (kind : String) (target : ℚ) (o : ChainOption) :
    o ∈ protectiveCandidates options anchor kind target ↔
      o ∈ options ∧ specProtectiveCandidate kind anchor target o := by
  unfold protectiveCandidates specProtectiveCandidate
  by_cases hk : kind = "put"
  · rw [if_pos hk, if_pos hk]
    simp [List.mem_filter, and_assoc]
  · rw [if_neg hk, if_neg hk]
    simp [List.mem_filter, and_assoc]

/-- A single put quote strictly below the anchor but above the target
strike. -/
def lonePut44000 : ChainOption :=
  ⟨"BTC-27JUN25-44000-P", 44000, "put", some (-(8/100)), 9/1000, 62⟩

/-- C7 counterexample: a put at 44000 lies strictly below the anchor
45000 (the claimed protective direction), yet `find_protective_strike`
returns `none` because the code also requires the strike to be at or
below the target 42500, refuting the claim that `none` is returned only
when no quote lies strictly beyond the anchor. -/
theorem find_protective_strike_counterexample :
    find_protective_strike [lonePut44000] 45000 "put" 50000 (5/100) = none
    ∧ lonePut44000.option_type = "put" ∧ lonePut44000.strike < 45000 := by
  refine ⟨?_, rfl, by norm_num [lonePut44000]⟩
  norm_num [find_protective_strike, protectiveCandidates, lonePut44000,
    List.filter_cons, List.filter_nil]

/-- C7 amended: `find_protective_strike` restricts candidates to quotes of
the requested kind that are strictly beyond the anchor in the protective
direction AND at or beyond the target strike
`anchor ∓ spot * wing_width_fraction`; it returns `none` exactly when no
quote satisfies both, and otherwise a quote satisfying both whose strike
is closest to the target. -/
theorem find_protective_strike_amended (options : List ChainOption) (anchor : ℚ)
    (kind : String) (spot w target : ℚ)
    (htarget : target = if kind = "put" then anchor - spot * w
      else anchor + spot * w) :
    (find_protective_strike options anchor kind spot w = none
      ↔ ∀ o ∈ options, ¬ specProtectiveCandidate kind anchor target o)
    ∧ (∀ q, find_protective_strike options anchor kind spot w = some q →
        q ∈ options ∧ specProtectiveCandidate kind anchor target q
        ∧ ∀ o ∈ options, specProtectiveCandidate kind anchor target o →
            |q.strike - target| ≤ |o.strike - target|) := by
  simp only [find_protective_strike]
  rw [← htarget]
  cases hc : protectiveCandidates options anchor kind target with
  | nil =>
    constructor
    · constructor
      · intro _ o ho hcand
        have hmem : o ∈ protectiveCandidates options anchor kind target :=
          (protectiveCandidates_mem options anchor kind target o).mpr ⟨ho, hcand⟩
        rw [hc] at hmem
        exact absurd hmem (List.not_mem_nil o)
      · intro _; rfl
    · intro q hq
      exact absurd hq (by simp)
  | cons c cs =>
    obtain ⟨l1, l2, hsplit, hbefore, hmin⟩ :=
      pickFirstMin_spec (fun o => |o.strike - target|) c cs
    have hrmem : pickFirstMin (fun o => |o.strike - target|) c cs ∈ c :: cs := by
      rw [hsplit]
      exact List.mem_append_right l1 (List.mem_cons_self _ l2)
    have hrin : pickFirstMin (fun o => |o.strike - target|) c cs ∈ options
        ∧ specProtectiveCandidate kind anchor target
            (pickFirstMin (fun o => |o.strike - target|) c cs) := by
      rw [← hc] at hrmem
      exact (protectiveCandidates_mem options anchor kind target _).mp hrmem
    constructor
    · constructor
      · intro habs
        exact absurd habs (by simp)
      · intro hall
        exact absurd hrin.2 (hall _ hrin.1)
    · intro q hq
      have hqr : pickFirstMin (fun o => |o.strike - target|) c cs = q := by
        injection hq
      subst hqr
      refine ⟨hrin.1, hrin.2, ?_⟩
      intro o ho hocand
      have hmem : o ∈ c :: cs := by
        rw [← hc]
        exact (protectiveCandidates_mem options anchor kind target o).mpr ⟨ho, hocand⟩
      exact hmin _ hmem

/-- C7 witness: on the scenario chain the protective put returned for
anchor 45000 (the quote at 42500) is in the chain and satisfies the
amended candidate condition for target 42500. -/
theorem find_protective_strike_amended_witness :
    (⟨"BTC-27JUN25-42500-P", 42500, "put", some (-(5/100)), 7/1000, 65⟩
        : ChainOption) ∈ chainEx
    ∧ specProtectiveCandidate "put" 45000 42500
        ⟨"BTC-27JUN25-42500-P", 42500, "put", some (-(5/100)), 7/1000, 65⟩ := by
  have h := (find_protective_strike_amended chainEx 45000 "put" 50000 (5/100)
      42500 (by norm_num)).2
    ⟨"BTC-27JUN25-42500-P", 42500, "put", some (-(5/100)), 7/1000, 65⟩
    (by norm_num [find_protective_strike, protectiveCandidates, chainEx,
      pickFirstMin, List.filter_cons, List.filter_nil, List.foldl_cons,
      List.foldl_nil, call_ne_put, put_ne_call, abs_eq_max_neg, max_def])
  exact ⟨h.1, h.2.1⟩

/-! ### C10 — failed closes leave the structure tracked and untouched -/

/-- Every condor queued for closing by the flagging phase is one of the
monitored condors (shared helper). -/
theorem flag_condors_sub (tteOf pnlOf : IronCondor → Option ℚ) (hours : ℚ)
    (l : List IronCondor) :
    ∀ p ∈ (flag_condors tteOf pnlOf hours l).1, p.1 ∈ l := by
  induction l with
  | nil =>
    intro p hp
    simp [flag_condors] at hp
  | cons c rest ih =>
    intro p hp
    simp only [flag_condors] at hp
    split at hp
    · split at hp
      · exact List.mem_cons_of_mem c (ih p hp)
      · rcases List.mem_cons.mp hp with rfl | hp'
        · exact List.mem_cons_self c rest
        · exact List.mem_cons_of_mem c (ih p hp')
    · exact List.mem_cons_of_mem c (ih p hp)

/-- C10: for a condor flagged for exit, if the close fails the monitoring
step leaves the condor object unchanged (status still `open`, close
fields unset), contributes only one error to the statistics, and the
condor stays in the tracked set returned by `monitor_positions`; the
close fields and status are set (and the condor removed) only when the
close succeeds. -/
theorem monitor_close_failure_preserves
    (tteOf pnlOf : IronCondor → Option ℚ) (closeLegOk : IronCondor → ℕ → Bool)
    (hours now : ℚ) (open_condors : List IronCondor) (c : IronCondor)
    (reason : String)
    (hmem : c ∈ open_condors)
    (hnodup : (open_condors.map (fun x => x.id)).Nodup)
    (hflag : (c, reason) ∈ (flag_condors tteOf pnlOf hours open_condors).1) :
    (close_iron_condor c (closeLegOk c) = false →
      close_condor_step pnlOf closeLegOk now c reason
          = { removed := false, condor := c, d_tp := 0, d_sl := 0, d_expiry := 0,
                d_pnl := 0, d_errors := 1 }
      ∧ c ∈ (monitor_positions tteOf pnlOf closeLegOk hours now open_condors).2)
    ∧ (close_iron_condor c (closeLegOk c) = true →
        (close_condor_step pnlOf closeLegOk now c reason).removed = true
        ∧ (close_condor_step pnlOf closeLegOk now c reason).condor
            = { c with
                  realized_pnl := pnlOf c, close_time := some now,
                  close_reason := some reason, status := "closed" }) := by
  constructor
  · intro hfail
    refine ⟨by simp [close_condor_step, hfail], ?_⟩
    simp only [monitor_positions]
    apply List.mem_filter.mpr
    refine ⟨hmem, ?_⟩
    rw [decide_eq_true_eq]
    intro hid
    obtain ⟨o, ho, hosome⟩ := List.mem_filterMap.mp hid
    obtain ⟨pr, hpr, rfl⟩ := List.mem_map.mp ho
    by_cases hclose : close_iron_condor pr.1 (closeLegOk pr.1) = true
    · have hid_eq : pr.1.id = c.id := by
        simpa [close_condor_step, hclose] using hosome
      have hprin : pr.1 ∈ open_condors :=
        flag_condors_sub tteOf pnlOf hours open_condors pr hpr
      have hpc : pr.1 = c := List.inj_on_of_nodup_map hnodup hprin hmem hid_eq
      rw [hpc] at hclose
      simp [hfail] at hclose
    · have hcf : close_iron_condor pr.1 (closeLegOk pr.1) = false :=
        Bool.not_eq_true _ ▸ eq_false_of_ne_true hclose
      simp [close_condor_step, hcf] at hosome
  · intro hsucc
    exact ⟨by simp [close_condor_step, hsucc], by simp [close_condor_step, hsucc]⟩

/-- C10 witness: one tracked condor is flagged (expired) and its close
fails on every leg: the step reports only an error and the condor remains
tracked and unchanged. -/
theorem monitor_close_failure_preserves_witness :
    close_condor_step (fun _ => some 5) (fun _ _ => false) 0 condorEx "expiry"
      = { removed := false, condor := condorEx, d_tp := 0, d_sl := 0,
          d_expiry := 0, d_pnl := 0, d_errors := 1 }
    ∧ condorEx ∈ (monitor_positions (fun _ => some 0) (fun _ => some 5)
        (fun _ _ => false) 24 0 [condorEx]).2 :=
  (monitor_close_failure_preserves (fun _ => some 0) (fun _ => some 5)
    (fun _ _ => false) 24 0 [condorEx] condorEx "expiry"
    (List.mem_singleton.mpr rfl) (by simp)
    (by norm_num [flag_condors, check_exit_conditions])).1
    (by simp [close_iron_condor_eq])
